import Mathlib

/-!
The dice deploy action client (`actions/dice/1.0/internal/dice/client.go`).

A shallow embedding of `Deploy`, `Check` and `getDeploymentStatus`.

* An HTTP exchange is represented by its outcome (`Reply`): either the error
  returned by `Do().JSON(..)` or a status code together with the JSON body.
* The pointer parameter `lastDeployStatusInfo` is passed in and returned.
* Logging and the diagnostic file write are recorded as a list of `Effect`s.
* Renderings produced by the `fmt` and `encoding/json` packages for opaque
  values are taken as a parameter (`Printer`).
* The `int64` fields of `DeployResult` are integers in the `int64` range; a JSON number
  reaches them through the `float64` that the decoded `interface{}` holds.
-/

namespace Dice

/-! ## Data model -/

/-- A JSON value of a response body; `null` decodes to the nil interface. Numbers are
restricted to integer literals that `float64` can hold without overflow (magnitude below
`2^1024`). -/
inductive JSON where
  | null
  | bool (b : Bool)
  | num (n : Int)
  | str (s : String)
  | arr (xs : List JSON)
  | obj (members : List (String × JSON))

/-- The `Err` struct (lines 28-32). `Ctx` is a map that may be nil. -/
structure Err where
  Code : String := ""
  Message : String := ""
  Ctx : Option (List (String × JSON)) := none

/-- The `DiceResponse` struct (lines 22-26); the default value is Go's zero value. -/
structure DiceResponse where
  Success : Bool := false
  Data : JSON := JSON.null
  Err : Err := {}

/-- Go's `int64`: an integer `n` with `-2^63 ≤ n < 2^63`. -/
structure Int64 where
  val : Int
  inRange : -2^63 ≤ val ∧ val < 2^63
  deriving DecidableEq, Repr

/-- The `int64` that an integer denotes in two's complement (the integer itself when it
is in range); used for numerals. -/
def Int64.ofInt (x : Int) : Int64 :=
  ⟨(x + 2^63) % 2^64 - 2^63, by
    have h1 := Int.emod_nonneg (x + 2^63) (by norm_num : (2:Int)^64 ≠ 0)
    have h2 := Int.emod_lt_of_pos (x + 2^63) (by norm_num : (0:Int) < 2^64)
    constructor <;> omega⟩

instance (n : Nat) : OfNat Int64 n := ⟨Int64.ofInt n⟩

/-- The `DeployResult` struct (lines 34-39); the default value is Go's zero value. -/
structure DeployResult where
  DeploymentId : Int64 := 0
  ApplicationId : Int64 := 0
  RuntimeId : Int64 := 0
  Operator : String := ""
  deriving DecidableEq, Repr

/-- The anonymous `Data` struct of `R` (lines 109-115). -/
structure RData where
  DeploymentId : Int := 0
  Status : String := ""
  FailCause : String := ""
  MoudleErrMsg : List (String × String) := []
  Runtime : JSON := JSON.null

/-- The `R` struct (lines 107-117). -/
structure R where
  Success : Bool := false
  Data : RData := {}
  Err : Err := {}

/-- Go `error` values that occur in this file. -/
inductive GoError where
  /-- An error returned by a library call (`Do().JSON`, `json.Marshal`, `mapstructure.Decode`) -/
  | lib (msg : String)
  /-- An error built by `errors.Errorf` / `errors.Wrapf` -/
  | errorf (msg : String)
  /-- The value `&DiceDeployError{s}` (lines 62-68) -/
  | diceDeploy (s : String)
  deriving DecidableEq, Repr

/-- The `Error()` method: the text of an error. -/
def GoError.Error : GoError → String
  | .lib msg => msg
  | .errorf msg => msg
  | .diceDeploy s => s

/-- Outcome of `httpclient ... .Do().JSON(&v)`: an error, or a response with its status
code and body. -/
inductive Reply (β : Type) where
  | failed (err : GoError)
  | response (statusCode : Nat) (body : β)

/-- Method `(*Response).IsOK`: the status code is 2xx. -/
def IsOK (statusCode : Nat) : Bool := statusCode / 100 == 2

/-- Text renderings of opaque values by `fmt` (`%v`, `%+v`) and `encoding/json`. -/
structure Printer where
  /-- The `%v` rendering of `Err.Ctx` -/
  ctx : Option (List (String × JSON)) → String
  /-- The `%+v` rendering of a `DiceResponse` -/
  diceResp : DiceResponse → String
  /-- The `%+v` rendering of a `DeployResult` -/
  deployResult : DeployResult → String
  /-- The members that `json.Marshal` writes between the braces of an `R` object -/
  members : R → String

/-- A printer that renders every opaque value as an ellipsis; used for concrete runs. -/
def Printer.elided : Printer := ⟨fun _ => "...", fun _ => "...", fun _ => "...", fun _ => "..."⟩

/-- Observable side effects of `Check`. -/
inductive Effect where
  /-- A call of `result.Print()` (lines 119-155) -/
  | print (r : R)
  /-- A call of `storeMetaFileWithErr(conf, runtimeId, deploymentId, result)` -/
  | storeMetaFileWithErr (runtimeId deploymentId : Int64) (r : R)
  /-- A call of `logrus.Info(msg)` -/
  | info (msg : String)

/-- Whether an effect is a `Print` of the status detail. -/
def Effect.isPrint : Effect → Bool
  | .print _ => true
  | _ => false

/-- Whether an effect is a diagnostic file write. -/
def Effect.isStore : Effect → Bool
  | .storeMetaFileWithErr _ _ _ => true
  | _ => false

/-! ## Status polling -/

/-- Function `getDeploymentStatus` (lines 191-206). The variable `result` is declared inside the
function, so the decoded body depends on the response alone and `reply` carries it. -/
def getDeploymentStatus (P : Printer) (reply : Reply R) : Except GoError R :=
  match reply with
  | .failed err => .error err
  | .response statusCode result =>
    if !IsOK statusCode then
      .error (.errorf ("deploy to dice failed, statusCode: " ++ toString statusCode))
    else if !result.Success then
      .error (.errorf ("create dice deploy failed. code=" ++ result.Err.Code ++
        ", message=" ++ result.Err.Message ++ ", ctx=" ++ P.ctx result.Err.Ctx))
    else
      .ok result

/-- The call `json.Marshal(result)` for `result : *R`: the text of a JSON object. Every field of `R`
decoded from a response is marshalable, so no error is produced. -/
def jsonMarshal (P : Printer) (result : R) : Except GoError String :=
  .ok ("\x7b" ++ P.members result ++ "\x7d")

/-- What a call of `Check` yields: its three return values, the value left in
`*lastDeployStatusInfo`, and the effects performed, in order. -/
structure CheckOut where
  continue_ : Bool
  runtime : JSON
  err : Option GoError
  lastDeployStatusInfo : String
  effects : List Effect

/-- Method `Check` (lines 157-189). -/
def Check (P : Printer) (res : DeployResult) (reply : Reply R)
    (lastDeployStatusInfo : String) : CheckOut :=
  match getDeploymentStatus P reply with
  | .error err => ⟨false, .null, some err, lastDeployStatusInfo, []⟩
  | .ok result =>
    match jsonMarshal P result with
    | .error err => ⟨false, .null, some err, lastDeployStatusInfo, []⟩
    | .ok deployStatusInfo =>
      let logged : String × List Effect :=
        if deployStatusInfo ≠ lastDeployStatusInfo then
          (deployStatusInfo, [Effect.print result])
        else (lastDeployStatusInfo, [])
      let effects : List Effect :=
        if result.Data.MoudleErrMsg.length > 0 then
          logged.2 ++ [Effect.storeMetaFileWithErr res.RuntimeId res.DeploymentId result]
        else logged.2
      let status := result.Data.Status
      if status = "WAITING" ∨ status = "WAITAPPROVE" ∨ status = "INIT" then
        ⟨true, .null, none, logged.1, effects⟩
      else if status = "DEPLOYING" then
        ⟨true, .null, none, logged.1, effects⟩
      else if status = "OK" then
        ⟨false, result.Data.Runtime, none, logged.1, effects ++ [Effect.info "deploy success!"]⟩
      else if status = "CANCELED" then
        ⟨false, .null, some (.diceDeploy "deployment canceled by dice"), logged.1, effects⟩
      else if status = "FAILED" then
        ⟨false, .null, some (.diceDeploy ("deployment failed in dice, " ++ result.Data.FailCause)),
          logged.1, effects⟩
      else
        ⟨false, .null, some (.errorf ("deployment unknown " ++ status ++ " in dice")),
          logged.1, effects⟩

/-! ## Decoding a response body into the envelope -/

/-- ASCII case folding of a member key. -/
def foldKey (s : String) : String := String.mk (s.data.map Char.toLower)

/-- Whether a JSON member key addresses the struct field called `name`: `encoding/json`
and `mapstructure` both compare names without regard to case. -/
def keyIs (key name : String) : Bool := foldKey key == foldKey name

/-- The error that `Do().JSON` returns when a member has the wrong JSON type for its field. -/
def typeError (field : String) : GoError :=
  .lib ("failed to Unmarshal JSON, err:json: cannot unmarshal into Go struct field " ++ field)

/-- Keeps the first error, as `json.Unmarshal` does while it goes on decoding. -/
def saveError (saved : Option GoError) (err : GoError) : Option GoError :=
  match saved with
  | some e => some e
  | none => some err

/-- Decoding of one member of an `err` object into an existing `Err` value. A member that
is absent leaves its field as it was; `null` leaves a string as it was and makes the map
nil; an object is decoded into the existing map. -/
def Err.unmarshalMember (acc : Err × Option GoError) (m : String × JSON) : Err × Option GoError :=
  if keyIs m.1 "code" then
    match m.2 with
    | .str s => ({ acc.1 with Code := s }, acc.2)
    | .null => acc
    | _ => (acc.1, saveError acc.2 (typeError "Err.code"))
  else if keyIs m.1 "msg" then
    match m.2 with
    | .str s => ({ acc.1 with Message := s }, acc.2)
    | .null => acc
    | _ => (acc.1, saveError acc.2 (typeError "Err.msg"))
  else if keyIs m.1 "ctx" then
    match m.2 with
    | .obj ms => ({ acc.1 with Ctx := some ((acc.1.Ctx.getD []) ++ ms) }, acc.2)
    | .null => ({ acc.1 with Ctx := none }, acc.2)
    | _ => (acc.1, saveError acc.2 (typeError "Err.ctx"))
  else acc

/-- Decoding of one member of a response body into an existing `DiceResponse` value
(`json.Unmarshal` with a struct target): a member that is absent from the body leaves
its field as it was. -/
def DiceResponse.unmarshalMember (acc : DiceResponse × Option GoError) (m : String × JSON) :
    DiceResponse × Option GoError :=
  if keyIs m.1 "success" then
    match m.2 with
    | .bool b => ({ acc.1 with Success := b }, acc.2)
    | .null => acc
    | _ => (acc.1, saveError acc.2 (typeError "DiceResponse.success"))
  else if keyIs m.1 "data" then
    ({ acc.1 with Data := m.2 }, acc.2)
  else if keyIs m.1 "err" then
    match m.2 with
    | .obj ms =>
      let e := ms.foldl Err.unmarshalMember (acc.1.Err, acc.2)
      ({ acc.1 with Err := e.1 }, e.2)
    | .null => acc
    | _ => (acc.1, saveError acc.2 (typeError "DiceResponse.err"))
  else acc

/-- The effect of `.JSON(&diceResp)` on the variable `diceResp`, for a body that is
well-formed JSON: the new value of the variable and the error returned, if any. -/
def DiceResponse.unmarshal (diceResp : DiceResponse) (body : JSON) :
    DiceResponse × Option GoError :=
  match body with
  | .obj ms => ms.foldl DiceResponse.unmarshalMember (diceResp, none)
  | .null => (diceResp, none)
  | _ => (diceResp, some (typeError "DiceResponse"))

/-! ## Decoding the data into a `DeployResult` -/

/-- The member of a decoded JSON object that supplies the struct field `name`; of several
members with the same key the last one is the one the map holds. -/
def lookupField (name : String) (ms : List (String × JSON)) : Option JSON :=
  (ms.reverse.find? (fun m => keyIs m.1 name)).map Prod.snd

/-- Number of binary digits of `m`, computed with `fuel` halvings at most. -/
def bitsAux : Nat → Nat → Nat
  | 0, _ => 0
  | fuel + 1, m => if m = 0 then 0 else bitsAux fuel (m / 2) + 1

/-- Number of binary digits of `m`. -/
def bitLength (m : Nat) : Nat := bitsAux m m

/-- The value of the `float64` that `encoding/json` stores in an `interface{}` for the
integer literal `n`: `n` itself up to magnitude `2^53`, beyond that the nearest integer
with a 53-bit significand, ties going to the even significand. -/
def float64OfInt (n : Int) : Int :=
  let m := n.natAbs
  if m ≤ 2^53 then n
  else
    let e := bitLength m - 53
    let q := m / 2^e
    let r := m % 2^e
    let up : Bool := decide (2^e < 2 * r) || (decide (2 * r = 2^e) && decide (q % 2 = 1))
    n.sign * (((if up then q + 1 else q) * 2^e : Nat) : Int)

/-- The conversion `int64(f)` of an integral `float64` value that `mapstructure` performs.
A value outside the `int64` range has no `int64` equal to it; Go leaves the result to the
implementation, and the value taken here is the one of amd64. -/
def int64OfFloat (x : Int) : Int64 :=
  if h : -2^63 ≤ x ∧ x < 2^63 then ⟨x, h⟩ else ⟨-2^63, by norm_num⟩

/-- Decoding of an `int64` field: a missing (or null) member leaves the zero value, a
number reaches the field as the `int64` conversion of the `float64` held in the
`interface{}`, anything else is a shape mismatch. -/
def decodeInt (name : String) (v : Option JSON) : Int64 × List String :=
  match v with
  | none => (0, [])
  | some .null => (0, [])
  | some (.num n) => (int64OfFloat (float64OfInt n), [])
  | some _ => (0, [name ++ ": expected type int64, got unconvertible type"])

/-- Decoding of a `string` field: a missing (or null) member leaves the zero value, a
string is stored, anything else is a shape mismatch. -/
def decodeString (name : String) (v : Option JSON) : String × List String :=
  match v with
  | none => ("", [])
  | some .null => ("", [])
  | some (.str s) => (s, [])
  | some _ => ("", [name ++ ": expected type string, got unconvertible type"])

/-- Modelled from the spec: `mapstructure.Decode(data, &result)` with `result` a zero
`DeployResult`; the library is not among the sources. The spec describes it as "a
relaxed/structural field-mapping decode (tolerant of extra or missing fields); a shape
mismatch is a decode error". Returns the value left in `result` and the error, if any. -/
def mapstructureDecode (data : JSON) : DeployResult × Option GoError :=
  match data with
  | .null => ({}, none)
  | .obj ms =>
    let d := decodeInt "DeploymentId" (lookupField "DeploymentId" ms)
    let a := decodeInt "ApplicationId" (lookupField "ApplicationId" ms)
    let r := decodeInt "RuntimeId" (lookupField "RuntimeId" ms)
    let o := decodeString "Operator" (lookupField "Operator" ms)
    let errs := d.2 ++ a.2 ++ r.2 ++ o.2
    (⟨d.1, a.1, r.1, o.1⟩,
      if errs = [] then none
      else some (.lib (toString errs.length ++ " error(s) decoding:\n\n" ++
        String.intercalate "\n" (errs.map ("* " ++ ·)))))
  | _ => ({}, some (.lib "expected a map, got a value of another kind"))

/-! ## Deploy -/

/-- Modelled from the spec: `retry.DoWithInterval(fn, n, interval)` from the erda `retry`
package, which is not among the sources. The spec: "Retries the entire call up to 5 times
with a fixed 3-second interval between attempts on any error ... all 5 attempts exhausted
→ returns the last error". `fn` acts on the state `σ` it captures; `err` is the error of
the latest call; the sleep between calls has no effect on the state. -/
def DoWithIntervalLoop {σ : Type} (fn : σ → σ × Option GoError) :
    Nat → Option GoError → σ → σ × Option GoError
  | 0, err, s => (s, err)
  | n + 1, _, s =>
    match fn s with
    | (s', none) => (s', none)
    | (s', some e) => DoWithIntervalLoop fn n (some e) s'

/-- Modelled from the spec: `retry.DoWithInterval`, see `DoWithIntervalLoop`. -/
def DoWithInterval {σ : Type} (fn : σ → σ × Option GoError) (n : Nat) (s : σ) :
    σ × Option GoError :=
  DoWithIntervalLoop fn n none s

/-- The state the retried closure of `Deploy` works on: the variable `diceResp` declared
at line 73, outside the closure, and the number of POST requests sent so far. -/
structure DeployRun where
  diceResp : DiceResponse := {}
  requests : Nat := 0

/-- One execution of the closure passed to `retry.DoWithInterval` (lines 74-92), receiving
`reply` from the endpoint. -/
def deployAttempt (P : Printer) (reply : Reply JSON) (diceResp : DiceResponse) :
    DiceResponse × Option GoError :=
  match reply with
  | .failed err => (diceResp, some err)
  | .response statusCode body =>
    match DiceResponse.unmarshal diceResp body with
    | (d, some err) => (d, some err)
    | (d, none) =>
      if !IsOK statusCode then
        (d, some (.errorf ("create a dice deploy failed, statusCode: " ++ toString statusCode ++
          ", diceResp:" ++ P.diceResp d)))
      else if !d.Success then
        (d, some (.errorf ("create dice deploy failed. code=" ++ d.Err.Code ++
          ", message=" ++ d.Err.Message ++ ", ctx=" ++ P.ctx d.Err.Ctx)))
      else (d, none)

/-- The closure as a state transformer; `endpoint k` is the endpoint's reply to the
`k`-th request (counted from 0). -/
def deployStep (P : Printer) (endpoint : Nat → Reply JSON) (s : DeployRun) :
    DeployRun × Option GoError :=
  let a := deployAttempt P (endpoint s.requests) s.diceResp
  (⟨a.1, s.requests + 1⟩, a.2)

/-- What a call of `Deploy` yields: its two return values, the number of requests it
sent, and what it logged. -/
structure DeployOut where
  result : Option DeployResult
  err : Option GoError
  requests : Nat
  logged : List String

/-- Method `Deploy` (lines 72-105). -/
def Deploy (P : Printer) (endpoint : Nat → Reply JSON) : DeployOut :=
  let run := DoWithInterval (deployStep P endpoint) 5 {}
  match run.2 with
  | some err =>
    ⟨none, some err, run.1.requests, ["deploy to dice failed! response err: " ++ err.Error]⟩
  | none =>
    let decoded := mapstructureDecode run.1.diceResp.Data
    match decoded.2 with
    | some err =>
      ⟨none, some (.errorf ("mapstructure data=" ++ P.deployResult decoded.1 ++ ": " ++ err.Error)),
        run.1.requests, []⟩
    | none => ⟨some decoded.1, none, run.1.requests, []⟩

/-- The state reached from `s` by `k` executions of `fn`, whatever they returned. -/
def runFrom {σ : Type} (fn : σ → σ × Option GoError) : Nat → σ → σ
  | 0, s => s
  | k + 1, s => runFrom fn k (fn s).1

/-- The state of a run of `Deploy` after `k` executions of the closure. -/
def stateAfter (P : Printer) (endpoint : Nat → Reply JSON) (k : Nat) : DeployRun :=
  runFrom (deployStep P endpoint) k {}

/-- The error returned by attempt number `k` (counted from 0) of a run; `none` is nil,
the attempt succeeded. -/
def attemptErr (P : Printer) (endpoint : Nat → Reply JSON) (k : Nat) : Option GoError :=
  (deployStep P endpoint (stateAfter P endpoint k)).2

/-- A successful deploy response body: the example of the specification. -/
def aliceBody : JSON :=
  .obj [("success", .bool true),
    ("data", .obj [("deploymentId", .num 10), ("applicationId", .num 20),
      ("runtimeId", .num 30), ("operator", .str "alice")])]

/-- An endpoint that answers the first `k` requests with status 500 and an envelope with
success = false, and every later request with status 200 and `aliceBody`. -/
def failsFirst (k : Nat) : Nat → Reply JSON := fun i =>
  if i < k then .response 500 (.obj [("success", .bool false)]) else .response 200 aliceBody

/-- An endpoint whose requests all fail with a transport error naming the request. -/
def alwaysDown : Nat → Reply JSON := fun i =>
  .failed (.lib ("connection refused #" ++ toString i))

/-- An endpoint that first answers success = false together with data naming deployment
`d`, and from then on answers with a bare success = true. -/
def staleData (d : Int) : Nat → Reply JSON := fun i =>
  if i = 0 then
    .response 200 (.obj [("success", .bool false), ("data", .obj [("deploymentId", .num d)])])
  else .response 200 (.obj [("success", .bool true)])

/-- An endpoint whose first four requests fail, each in another way (request error,
status 500, success = false in a 200 response, status 503), and whose later requests are
answered with status 200 and `aliceBody`. -/
def flaky : Nat → Reply JSON := fun i =>
  if i = 0 then .failed (.lib "connection reset")
  else if i = 1 then .response 500 (.obj [("success", .bool true)])
  else if i = 2 then
    .response 200 (.obj [("success", .bool false), ("err", .obj [("code", .str "E1")])])
  else if i = 3 then .response 503 .null
  else .response 200 aliceBody

/-- An endpoint whose first four requests get status 500 and whose fifth request gets
status 200 with success = true and data that is a string. -/
def badShape : Nat → Reply JSON := fun i =>
  if i < 4 then .response 500 (.obj [("success", .bool false)])
  else .response 200 (.obj [("success", .bool true), ("data", .str "oops")])

/-- An endpoint that answers with status 200, success = true and a deployment id of
`2^53 + 1`. -/
def bigId : Nat → Reply JSON := fun _ =>
  .response 200 (.obj [("success", .bool true),
    ("data", .obj [("deploymentId", .num 9007199254740993), ("applicationId", .num 20),
      ("runtimeId", .num 30), ("operator", .str "alice")])])

/-! ## Reading a response body -/

/-- Whether `v` is the JSON boolean `b`. -/
def JSON.isBool (b : Bool) : JSON → Bool
  | .bool c => c == b
  | _ => false

/-- Whether `v` is a JSON string or null. -/
def JSON.isStringOrNull : JSON → Bool
  | .str _ => true
  | .null => true
  | _ => false

/-- Whether `v` is a JSON object or null. -/
def JSON.isObjectOrNull : JSON → Bool
  | .obj _ => true
  | .null => true
  | _ => false

/-- Whether the members `ms` of an object hold the value `v` under `name`: some member
has that name (in any letter case), and every member of that name has the value `v`. -/
def carries (name : String) (v : JSON) (ms : List (String × JSON)) : Prop :=
  (∃ m ∈ ms, keyIs m.1 name = true) ∧ ∀ m ∈ ms, keyIs m.1 name = true → m.2 = v

/-- Whether no member of `ms` has the name `name` (in any letter case). -/
def lacks (name : String) (ms : List (String × JSON)) : Bool :=
  ms.all fun m => !keyIs m.1 name

/-- Whether an envelope with members `bs` says success = `b`: it has a member named
success, and every such member is the boolean `b`. -/
def saysSuccess (b : Bool) (bs : List (String × JSON)) : Bool :=
  bs.any (fun m => keyIs m.1 "success") &&
    bs.all (fun m => !keyIs m.1 "success" || m.2.isBool b)

/-- Whether the value of an `err` member has the JSON types of the `Err` struct: null, or
an object whose code and msg are strings (or null) and whose ctx is an object (or null). -/
def errWellTyped : JSON → Bool
  | .null => true
  | .obj es => es.all fun x =>
      if keyIs x.1 "code" then x.2.isStringOrNull
      else if keyIs x.1 "msg" then x.2.isStringOrNull
      else if keyIs x.1 "ctx" then x.2.isObjectOrNull
      else true
  | _ => false

/-- Whether every member of `bs` named err is well typed. -/
def errOk (bs : List (String × JSON)) : Bool :=
  bs.all fun m => !keyIs m.1 "err" || errWellTyped m.2

/-- A reply on which an attempt fails whatever the earlier attempts were: the request
returned an error, the status code is not 2xx, or the envelope says success = false. -/
def Reply.isFailure : Reply JSON → Bool
  | .failed _ => true
  | .response statusCode (.obj bs) => !IsOK statusCode || saysSuccess false bs
  | .response statusCode _ => !IsOK statusCode

/-! ## Properties of `Check` -/

/-- The serialization of a status result is never the empty string. -/
lemma jsonMarshal_ne_empty (P : Printer) (r : R) :
    "\x7b" ++ P.members r ++ "\x7d" ≠ "" := by
  intro h
  have hlen := congrArg String.length h
  simp only [String.length_append] at hlen
  have h1 : "\x7d".length = 1 := rfl
  have h0 : "".length = 0 := rfl
  omega

/-- A fetched result is returned by `getDeploymentStatus` as it is. -/
lemma getDeploymentStatus_ok (P : Printer) (statusCode : Nat) (r : R)
    (hok : IsOK statusCode = true) (hs : r.Success = true) :
    getDeploymentStatus P (.response statusCode r) = .ok r := by
  simp [getDeploymentStatus, hok, hs]

/-- The snapshot left by `Check` on a fetched result. -/
lemma Check_snapshot (P : Printer) (res : DeployResult) (statusCode : Nat) (r : R)
    (last : String) (hok : IsOK statusCode = true) (hs : r.Success = true) :
    (Check P res (.response statusCode r) last).lastDeployStatusInfo =
      if "\x7b" ++ P.members r ++ "\x7d" ≠ last then "\x7b" ++ P.members r ++ "\x7d" else last := by
  simp only [Check, getDeploymentStatus_ok P statusCode r hok hs, jsonMarshal]
  split_ifs <;> rfl

/-- The number of `Print` calls made by `Check` on a fetched result. -/
lemma Check_prints (P : Printer) (res : DeployResult) (statusCode : Nat) (r : R)
    (last : String) (hok : IsOK statusCode = true) (hs : r.Success = true) :
    (Check P res (.response statusCode r) last).effects.countP Effect.isPrint =
      if "\x7b" ++ P.members r ++ "\x7d" ≠ last then 1 else 0 := by
  simp only [Check, getDeploymentStatus_ok P statusCode r hok hs, jsonMarshal]
  split_ifs <;> simp [Effect.isPrint, List.countP_cons, List.countP_nil]

/-- The diagnostic writes made by `Check` on a fetched result. -/
lemma Check_stores (P : Printer) (res : DeployResult) (statusCode : Nat) (r : R)
    (last : String) (hok : IsOK statusCode = true) (hs : r.Success = true) :
    (Check P res (.response statusCode r) last).effects.filter Effect.isStore =
      if r.Data.MoudleErrMsg.length > 0 then
        [Effect.storeMetaFileWithErr res.RuntimeId res.DeploymentId r]
      else [] := by
  simp only [Check, getDeploymentStatus_ok P statusCode r hok hs, jsonMarshal]
  split_ifs <;> simp [Effect.isStore, List.filter_cons, List.filter_nil]

/-- C1: for a fetched status result whose status is WAITING, WAITAPPROVE, INIT or DEPLOYING,
whatever its other fields and the previous snapshot are, `Check` returns continue = true,
nil runtime info and a nil error. -/
theorem Check_nonterminal (P : Printer) (res : DeployResult) (statusCode : Nat) (r : R)
    (last : String) (hok : IsOK statusCode = true) (hs : r.Success = true)
    (hst : r.Data.Status = "WAITING" ∨ r.Data.Status = "WAITAPPROVE" ∨
      r.Data.Status = "INIT" ∨ r.Data.Status = "DEPLOYING") :
    (Check P res (.response statusCode r) last).continue_ = true ∧
    (Check P res (.response statusCode r) last).runtime = JSON.null ∧
    (Check P res (.response statusCode r) last).err = none := by
  simp only [Check, getDeploymentStatus_ok P statusCode r hok hs, jsonMarshal]
  rcases hst with h | h | h | h <;> simp [h]

/-- Witness for C1: a DEPLOYING result carrying a fail cause and a module message. -/
theorem Check_nonterminal_witness :
    (Check Printer.elided {} (.response 200
        { Success := true,
          Data := { Status := "DEPLOYING", FailCause := "x", MoudleErrMsg := [("web", "oom")] } })
        "old").continue_ = true ∧
    (Check Printer.elided {} (.response 200
        { Success := true,
          Data := { Status := "DEPLOYING", FailCause := "x", MoudleErrMsg := [("web", "oom")] } })
        "old").runtime = JSON.null ∧
    (Check Printer.elided {} (.response 200
        { Success := true,
          Data := { Status := "DEPLOYING", FailCause := "x", MoudleErrMsg := [("web", "oom")] } })
        "old").err = none :=
  Check_nonterminal Printer.elided {} 200 _ "old" (by decide) rfl (by decide)

/-- C2 as stated fails: a fetched result with status OK and no runtime payload makes
`Check` return nil runtime info. -/
theorem Check_ok_nil_runtime :
    (Check Printer.elided {} (.response 200 { Success := true, Data := { Status := "OK" } })
        "").continue_ = false ∧
    (Check Printer.elided {} (.response 200 { Success := true, Data := { Status := "OK" } })
        "").err = none ∧
    (Check Printer.elided {} (.response 200 { Success := true, Data := { Status := "OK" } })
        "").runtime = JSON.null := by
  refine ⟨?_, ?_, ?_⟩ <;> rfl

/-- C2, amended: for a fetched status result whose status is OK, `Check` returns
continue = false, a nil error, and the runtime payload of the status result as it is
(nil when the result carries none). -/
theorem Check_ok (P : Printer) (res : DeployResult) (statusCode : Nat) (r : R)
    (last : String) (hok : IsOK statusCode = true) (hs : r.Success = true)
    (hst : r.Data.Status = "OK") :
    (Check P res (.response statusCode r) last).continue_ = false ∧
    (Check P res (.response statusCode r) last).err = none ∧
    (Check P res (.response statusCode r) last).runtime = r.Data.Runtime := by
  simp only [Check, getDeploymentStatus_ok P statusCode r hok hs, jsonMarshal]
  simp [hst]

/-- Witness for C2 amended: an OK result with a runtime payload. -/
theorem Check_ok_witness :
    (Check Printer.elided {} (.response 200
        { Success := true, Data := { Status := "OK", Runtime := JSON.obj [("id", JSON.num 7)] } })
        "").continue_ = false ∧
    (Check Printer.elided {} (.response 200
        { Success := true, Data := { Status := "OK", Runtime := JSON.obj [("id", JSON.num 7)] } })
        "").err = none ∧
    (Check Printer.elided {} (.response 200
        { Success := true, Data := { Status := "OK", Runtime := JSON.obj [("id", JSON.num 7)] } })
        "").runtime = JSON.obj [("id", JSON.num 7)] :=
  Check_ok Printer.elided {} 200 _ "" (by decide) rfl rfl

/-- C3: for a fetched status result whose status is CANCELED or FAILED, `Check` returns
continue = false, nil runtime info and a `DiceDeployError`; for FAILED its text is
"deployment failed in dice, " followed by the fail cause (so the fail cause is a suffix of
the text), for CANCELED it is "deployment canceled by dice". -/
theorem Check_canceled_failed (P : Printer) (res : DeployResult) (statusCode : Nat) (r : R)
    (last : String) (hok : IsOK statusCode = true) (hs : r.Success = true)
    (hst : r.Data.Status = "CANCELED" ∨ r.Data.Status = "FAILED") :
    (Check P res (.response statusCode r) last).continue_ = false ∧
    (Check P res (.response statusCode r) last).runtime = JSON.null ∧
    ∃ e : GoError, (Check P res (.response statusCode r) last).err = some e ∧
      (r.Data.Status = "CANCELED" → e = .diceDeploy "deployment canceled by dice" ∧
        e.Error = "deployment canceled by dice") ∧
      (r.Data.Status = "FAILED" →
        e = .diceDeploy ("deployment failed in dice, " ++ r.Data.FailCause) ∧
        e.Error = "deployment failed in dice, " ++ r.Data.FailCause ∧
        r.Data.FailCause.data <:+ e.Error.data) := by
  simp only [Check, getDeploymentStatus_ok P statusCode r hok hs, jsonMarshal]
  rcases hst with h | h
  · simp [h, GoError.Error]
  · simp [h, GoError.Error, String.data_append]
    exact ⟨"deployment failed in dice, ".data, rfl⟩

/-- Witness for C3: a FAILED result with an empty fail cause. -/
theorem Check_canceled_failed_witness :
    (Check Printer.elided {} (.response 200
        { Success := true, Data := { Status := "FAILED", FailCause := "" } }) "").continue_ = false ∧
    (Check Printer.elided {} (.response 200
        { Success := true, Data := { Status := "FAILED", FailCause := "" } }) "").runtime
          = JSON.null ∧
    ∃ e : GoError, (Check Printer.elided {} (.response 200
        { Success := true, Data := { Status := "FAILED", FailCause := "" } }) "").err = some e ∧
      (("FAILED" : String) = "CANCELED" → e = .diceDeploy "deployment canceled by dice" ∧
        e.Error = "deployment canceled by dice") ∧
      (("FAILED" : String) = "FAILED" →
        e = .diceDeploy ("deployment failed in dice, " ++ "") ∧
        e.Error = "deployment failed in dice, " ++ "" ∧
        ("" : String).data <:+ e.Error.data) :=
  Check_canceled_failed Printer.elided {} 200
    { Success := true, Data := { Status := "FAILED", FailCause := "" } } "" (by decide) rfl
    (Or.inr rfl)

/-- C4: for a fetched status result whose status is none of WAITING, WAITAPPROVE, INIT,
DEPLOYING, OK, CANCELED, FAILED, `Check` returns continue = false, nil runtime info and an
error whose text is "deployment unknown " ++ status ++ " in dice". -/
theorem Check_unknown (P : Printer) (res : DeployResult) (statusCode : Nat) (r : R)
    (last : String) (hok : IsOK statusCode = true) (hs : r.Success = true)
    (h1 : r.Data.Status ≠ "WAITING") (h2 : r.Data.Status ≠ "WAITAPPROVE")
    (h3 : r.Data.Status ≠ "INIT") (h4 : r.Data.Status ≠ "DEPLOYING")
    (h5 : r.Data.Status ≠ "OK") (h6 : r.Data.Status ≠ "CANCELED")
    (h7 : r.Data.Status ≠ "FAILED") :
    (Check P res (.response statusCode r) last).continue_ = false ∧
    (Check P res (.response statusCode r) last).runtime = JSON.null ∧
    ∃ e : GoError, (Check P res (.response statusCode r) last).err = some e ∧
      e.Error = "deployment unknown " ++ r.Data.Status ++ " in dice" := by
  simp only [Check, getDeploymentStatus_ok P statusCode r hok hs, jsonMarshal]
  simp [h1, h2, h3, h4, h5, h6, h7, GoError.Error]

/-- Witness for C4: the lower-case spelling "ok" is an unknown status. -/
theorem Check_unknown_witness :
    (Check Printer.elided {} (.response 200 { Success := true, Data := { Status := "ok" } })
        "").continue_ = false ∧
    (Check Printer.elided {} (.response 200 { Success := true, Data := { Status := "ok" } })
        "").runtime = JSON.null ∧
    ∃ e : GoError, (Check Printer.elided {} (.response 200
        { Success := true, Data := { Status := "ok" } }) "").err = some e ∧
      e.Error = "deployment unknown " ++ "ok" ++ " in dice" :=
  Check_unknown Printer.elided {} 200 { Success := true, Data := { Status := "ok" } } ""
    (by decide) rfl (by decide) (by decide) (by decide) (by decide) (by decide) (by decide)
    (by decide)

/-- C5: two successive calls of `Check` on the same fetched status payload, the first one
starting from the empty snapshot, log the status detail exactly once: the first call logs
it once and stores the serialization of the payload in the snapshot, the second call does
not log and leaves the snapshot as it is. -/
theorem Check_logs_once (P : Printer) (res : DeployResult) (statusCode : Nat) (r : R)
    (hok : IsOK statusCode = true) (hs : r.Success = true) :
    (Check P res (.response statusCode r) "").effects.countP Effect.isPrint = 1 ∧
    jsonMarshal P r = .ok (Check P res (.response statusCode r) "").lastDeployStatusInfo ∧
    (Check P res (.response statusCode r)
      (Check P res (.response statusCode r) "").lastDeployStatusInfo).effects.countP
        Effect.isPrint = 0 ∧
    (Check P res (.response statusCode r)
      (Check P res (.response statusCode r) "").lastDeployStatusInfo).lastDeployStatusInfo =
        (Check P res (.response statusCode r) "").lastDeployStatusInfo ∧
    ((Check P res (.response statusCode r) "").effects ++
      (Check P res (.response statusCode r)
        (Check P res (.response statusCode r) "").lastDeployStatusInfo).effects).countP
          Effect.isPrint = 1 := by
  have hne := jsonMarshal_ne_empty P r
  have hsnap : (Check P res (.response statusCode r) "").lastDeployStatusInfo =
      "\x7b" ++ P.members r ++ "\x7d" := by
    rw [Check_snapshot P res statusCode r "" hok hs, if_pos hne]
  have hfirst : (Check P res (.response statusCode r) "").effects.countP Effect.isPrint = 1 := by
    rw [Check_prints P res statusCode r "" hok hs, if_pos hne]
  have hsecond : (Check P res (.response statusCode r)
      ("\x7b" ++ P.members r ++ "\x7d")).effects.countP Effect.isPrint = 0 := by
    rw [Check_prints P res statusCode r _ hok hs, if_neg (by simp)]
  refine ⟨hfirst, ?_, ?_, ?_, ?_⟩
  · rw [hsnap]; rfl
  · rw [hsnap]; exact hsecond
  · rw [hsnap, Check_snapshot P res statusCode r _ hok hs, if_neg (by simp)]
  · rw [List.countP_append, hfirst, hsnap, hsecond]

/-- Witness for C5: a DEPLOYING payload polled twice. -/
theorem Check_logs_once_witness :
    ((Check Printer.elided {} (.response 200
        { Success := true, Data := { Status := "DEPLOYING" } }) "").effects ++
      (Check Printer.elided {} (.response 200
        { Success := true, Data := { Status := "DEPLOYING" } })
        (Check Printer.elided {} (.response 200
          { Success := true, Data := { Status := "DEPLOYING" } })
          "").lastDeployStatusInfo).effects).countP Effect.isPrint = 1 :=
  (Check_logs_once Printer.elided {} 200 { Success := true, Data := { Status := "DEPLOYING" } }
    (by decide) rfl).2.2.2.2

/-- C8: when the status query fails (the request returns an error, the status code is not
2xx, or the envelope has success = false), `getDeploymentStatus` returns an error and
`Check` returns (false, nil, that error) with no effect performed (nothing logged, nothing
persisted) and the snapshot left as it was, whatever status the body carries. -/
theorem Check_query_failure (P : Printer) (res : DeployResult) (reply : Reply R)
    (last : String)
    (hfail : (∃ err, reply = .failed err) ∨
      ∃ statusCode r, reply = .response statusCode r ∧
        (IsOK statusCode = false ∨ r.Success = false)) :
    ∃ e : GoError, getDeploymentStatus P reply = .error e ∧
      Check P res reply last = ⟨false, JSON.null, some e, last, []⟩ := by
  rcases hfail with ⟨err, rfl⟩ | ⟨statusCode, r, rfl, h⟩
  · exact ⟨err, rfl, rfl⟩
  · by_cases hok : IsOK statusCode = true
    · have hs : r.Success = false := by
        rcases h with h | h
        · simp [hok] at h
        · exact h
      refine ⟨.errorf ("create dice deploy failed. code=" ++ r.Err.Code ++
        ", message=" ++ r.Err.Message ++ ", ctx=" ++ P.ctx r.Err.Ctx), ?_, ?_⟩ <;>
        simp [Check, getDeploymentStatus, hok, hs]
    · refine ⟨.errorf ("deploy to dice failed, statusCode: " ++ toString statusCode), ?_, ?_⟩ <;>
        simp [Check, getDeploymentStatus, hok]

/-- Witness for C8: an envelope with success = false whose data says OK with module
messages. -/
theorem Check_query_failure_witness :
    ∃ e : GoError,
      getDeploymentStatus Printer.elided (.response 200
        { Success := false, Data := { Status := "OK", MoudleErrMsg := [("web", "oom")] } })
          = .error e ∧
      Check Printer.elided {} (.response 200
        { Success := false, Data := { Status := "OK", MoudleErrMsg := [("web", "oom")] } })
        "snapshot" = ⟨false, JSON.null, some e, "snapshot", []⟩ :=
  Check_query_failure Printer.elided {} _ "snapshot"
    (Or.inr ⟨200, _, rfl, Or.inr rfl⟩)

/-- C9: for a fetched status result that carries at least one non-empty per-module error
message, every call of `Check` performs exactly one diagnostic write, with the deploy
result's runtime id, its deployment id and the whole status result, whatever the status
string and the previous snapshot are. -/
theorem Check_persists_diagnostics (P : Printer) (res : DeployResult) (statusCode : Nat)
    (r : R) (last : String) (hok : IsOK statusCode = true) (hs : r.Success = true)
    (hmsg : ∃ m ∈ r.Data.MoudleErrMsg, m.2 ≠ "") :
    (Check P res (.response statusCode r) last).effects.filter Effect.isStore =
      [Effect.storeMetaFileWithErr res.RuntimeId res.DeploymentId r] := by
  obtain ⟨m, hm, -⟩ := hmsg
  have hlen : r.Data.MoudleErrMsg.length > 0 := List.length_pos_of_mem hm
  rw [Check_stores P res statusCode r last hok hs, if_pos hlen]

/-- Witness for C9: a DEPLOYING result with a module message whose serialization equals
the previous snapshot. -/
theorem Check_persists_diagnostics_witness :
    (Check Printer.elided ⟨10, 20, 30, "alice"⟩ (.response 200
        { Success := true, Data := { Status := "DEPLOYING", MoudleErrMsg := [("web", "oom")] } })
        "\x7b...\x7d").effects.filter Effect.isStore =
      [Effect.storeMetaFileWithErr 30 10
        { Success := true, Data := { Status := "DEPLOYING", MoudleErrMsg := [("web", "oom")] } }] :=
  Check_persists_diagnostics Printer.elided ⟨10, 20, 30, "alice"⟩ 200 _ "\x7b...\x7d"
    (by decide) rfl ⟨("web", "oom"), by simp, by decide⟩

/-! ## Properties of the retry loop -/

/-- One more execution of `fn` after `k` of them. -/
lemma runFrom_succ {σ : Type} (fn : σ → σ × Option GoError) (k : Nat) (s : σ) :
    runFrom fn (k + 1) s = (fn (runFrom fn k s)).1 := by
  induction k generalizing s with
  | zero => rfl
  | succ k ih =>
    show runFrom fn (k + 1) (fn s).1 = (fn (runFrom fn k (fn s).1)).1
    exact ih (fn s).1

/-- The loop stops at the first execution of `fn` that returns nil. -/
lemma DoWithIntervalLoop_first_success {σ : Type} (fn : σ → σ × Option GoError) (n k : Nat)
    (err : Option GoError) (s : σ) (hk : k < n)
    (hfail : ∀ j, j < k → (fn (runFrom fn j s)).2 ≠ none)
    (hok : (fn (runFrom fn k s)).2 = none) :
    DoWithIntervalLoop fn n err s = (runFrom fn (k + 1) s, none) := by
  induction n generalizing k err s with
  | zero => omega
  | succ n ih =>
    cases k with
    | zero =>
      rcases hfs : fn s with ⟨s', _ | e⟩
      · simp [DoWithIntervalLoop, runFrom, hfs]
      · simp [runFrom, hfs] at hok
    | succ k =>
      rcases hfs : fn s with ⟨s', _ | e⟩
      · have := hfail 0 (by omega)
        simp [runFrom, hfs] at this
      · have hrec := ih k (some e) s' (by omega)
          (fun j hj => by
            have := hfail (j + 1) (by omega)
            simpa [runFrom, hfs] using this)
          (by simpa [runFrom, hfs] using hok)
        simp only [DoWithIntervalLoop, hfs]
        rw [hrec]
        simp [runFrom, hfs]

/-- When every execution fails the loop makes all of them and returns the last error. -/
lemma DoWithIntervalLoop_all_fail {σ : Type} (fn : σ → σ × Option GoError) (n : Nat)
    (err : Option GoError) (s : σ)
    (hfail : ∀ j, j < n + 1 → (fn (runFrom fn j s)).2 ≠ none) :
    DoWithIntervalLoop fn (n + 1) err s =
      (runFrom fn (n + 1) s, (fn (runFrom fn n s)).2) := by
  induction n generalizing err s with
  | zero =>
    rcases hfs : fn s with ⟨s', _ | e⟩
    · have := hfail 0 (by omega)
      simp [runFrom, hfs] at this
    · simp [DoWithIntervalLoop, runFrom, hfs]
  | succ n ih =>
    rcases hfs : fn s with ⟨s', _ | e⟩
    · have := hfail 0 (by omega)
      simp [runFrom, hfs] at this
    · have hrec := ih (some e) s' (fun j hj => by
        have := hfail (j + 1) (by omega)
        simpa [runFrom, hfs] using this)
      rw [DoWithIntervalLoop, hfs]
      show DoWithIntervalLoop fn (n + 1) (some e) s' = _
      rw [hrec]
      simp [runFrom, hfs]

/-- Each execution of the closure sends one request. -/
lemma runFrom_requests (P : Printer) (endpoint : Nat → Reply JSON) (k : Nat) (s : DeployRun) :
    (runFrom (deployStep P endpoint) k s).requests = s.requests + k := by
  induction k generalizing s with
  | zero => rfl
  | succ k ih =>
    show (runFrom (deployStep P endpoint) k (deployStep P endpoint s).1).requests = _
    rw [ih]
    simp [deployStep]
    omega

/-- The retry loop of `Deploy` sends between one and `n` requests (for `n ≥ 1`). -/
lemma DoWithIntervalLoop_requests (P : Printer) (endpoint : Nat → Reply JSON) (n : Nat)
    (err : Option GoError) (s : DeployRun) :
    s.requests + min n 1 ≤ (DoWithIntervalLoop (deployStep P endpoint) n err s).1.requests ∧
    (DoWithIntervalLoop (deployStep P endpoint) n err s).1.requests ≤ s.requests + n := by
  induction n generalizing err s with
  | zero => simp [DoWithIntervalLoop]
  | succ n ih =>
    rcases hfs : deployStep P endpoint s with ⟨s', _ | e⟩
    · have hreq : s'.requests = s.requests + 1 := by
        have := congrArg (fun x => x.1.requests) hfs
        simpa [deployStep] using this.symm
      simp only [DoWithIntervalLoop, hfs]
      omega
    · have hreq : s'.requests = s.requests + 1 := by
        have := congrArg (fun x => x.1.requests) hfs
        simpa [deployStep] using this.symm
      simp only [DoWithIntervalLoop, hfs]
      have := ih (some e) s'
      omega

/-- The state after `k` attempts has sent `k` requests. -/
lemma stateAfter_requests (P : Printer) (endpoint : Nat → Reply JSON) (k : Nat) :
    (stateAfter P endpoint k).requests = k := by
  simp [stateAfter, runFrom_requests]

/-- An attempt returns nil exactly when the endpoint answers with a 2xx response whose
body decodes without error and leaves `Success` set in `diceResp`. -/
lemma attemptErr_eq_none_iff (P : Printer) (endpoint : Nat → Reply JSON) (k : Nat) :
    attemptErr P endpoint k = none ↔
      ∃ statusCode body d, endpoint k = .response statusCode body ∧
        DiceResponse.unmarshal (stateAfter P endpoint k).diceResp body = (d, none) ∧
        IsOK statusCode = true ∧ d.Success = true := by
  simp only [attemptErr, deployStep, stateAfter_requests]
  rcases hrep : endpoint k with err | ⟨statusCode, body⟩
  · simp [deployAttempt]
  · rcases hdec : DiceResponse.unmarshal (stateAfter P endpoint k).diceResp body with ⟨d, _ | e⟩
    · by_cases hok : IsOK statusCode = true
      · by_cases hs : d.Success = true
        · simp [deployAttempt, hdec, hok, hs]
          exact ⟨statusCode, body, ⟨rfl, rfl⟩, d, hdec, hok, hs⟩
        · simp [deployAttempt, hdec, hok, hs]
      · simp [deployAttempt, hdec, hok]
    · simp [deployAttempt, hdec]

/-- The retry loop of `Deploy` when attempt `k` is the first to return nil. -/
lemma retry_first_success (P : Printer) (endpoint : Nat → Reply JSON) (k : Nat) (hk : k < 5)
    (hfail : ∀ j, j < k → attemptErr P endpoint j ≠ none)
    (hok : attemptErr P endpoint k = none) :
    DoWithInterval (deployStep P endpoint) 5 {} = (stateAfter P endpoint (k + 1), none) :=
  DoWithIntervalLoop_first_success (deployStep P endpoint) 5 k none {} hk hfail hok

/-- The retry loop of `Deploy` when all five attempts fail. -/
lemma retry_all_fail (P : Printer) (endpoint : Nat → Reply JSON)
    (hfail : ∀ j, j < 5 → attemptErr P endpoint j ≠ none) :
    DoWithInterval (deployStep P endpoint) 5 {} =
      (stateAfter P endpoint 5, attemptErr P endpoint 4) :=
  DoWithIntervalLoop_all_fail (deployStep P endpoint) 4 none {} hfail

/-- The number of requests `Deploy` sends is the number the retry loop sent. -/
lemma Deploy_requests (P : Printer) (endpoint : Nat → Reply JSON) :
    (Deploy P endpoint).requests = (DoWithInterval (deployStep P endpoint) 5 {}).1.requests := by
  unfold Deploy
  rcases (DoWithInterval (deployStep P endpoint) 5 {}) with ⟨s, _ | e⟩
  · dsimp only
    rcases (mapstructureDecode s.diceResp.Data) with ⟨r, _ | e'⟩ <;> rfl
  · rfl

/-- The value of `Deploy` once its retry loop has ended without error in state `s`. -/
lemma Deploy_of_retry_ok (P : Printer) (endpoint : Nat → Reply JSON) (s : DeployRun)
    (r : DeployResult)
    (hrun : DoWithInterval (deployStep P endpoint) 5 {} = (s, none))
    (hdec : mapstructureDecode s.diceResp.Data = (r, none)) :
    Deploy P endpoint = ⟨some r, none, s.requests, []⟩ := by
  simp [Deploy, hrun, hdec]

/-! ## Decoding lemmas -/

/-- A member key addresses at most one of two fields whose names differ. -/
lemma keyIs_excl (key a b : String) (hab : foldKey a ≠ foldKey b)
    (h : keyIs key a = true) : keyIs key b = false := by
  simp only [keyIs, beq_iff_eq] at h
  simp only [keyIs, h, beq_eq_false_iff_ne]
  exact hab

/-- Names that differ only in letter case address the same field. -/
lemma keyIs_congr (key a b : String) (hab : foldKey a = foldKey b) :
    keyIs key a = keyIs key b := by
  simp only [keyIs, hab]

/-- A value recognised as the boolean `b` is that boolean. -/
lemma eq_bool_of_isBool (b : Bool) (v : JSON) (h : v.isBool b = true) : v = JSON.bool b := by
  cases v <;> simp_all [JSON.isBool]

/-- What `saysSuccess` says about the members. -/
lemma saysSuccess_iff (b : Bool) (bs : List (String × JSON)) :
    saysSuccess b bs = true ↔ carries "success" (JSON.bool b) bs := by
  simp only [saysSuccess, carries, Bool.and_eq_true, List.any_eq_true, List.all_eq_true,
    Bool.or_eq_true, Bool.not_eq_true']
  constructor
  · rintro ⟨⟨m, hm, hk⟩, hall⟩
    refine ⟨⟨m, hm, hk⟩, fun x hx hxk => ?_⟩
    rcases hall x hx with h | h
    · rw [hxk] at h; cases h
    · exact eq_bool_of_isBool b _ h
  · rintro ⟨⟨m, hm, hk⟩, hall⟩
    refine ⟨⟨m, hm, hk⟩, fun x hx => ?_⟩
    by_cases hxk : keyIs x.1 "success" = true
    · right; rw [hall x hx hxk]; simp [JSON.isBool]
    · left; simpa using hxk

/-- Decoding a member named success that is a boolean sets `Success`. -/
lemma unmarshalMember_success (acc : DiceResponse × Option GoError) (m : String × JSON)
    (b : Bool) (hk : keyIs m.1 "success" = true) (hv : m.2 = JSON.bool b) :
    DiceResponse.unmarshalMember acc m = ({ acc.1 with Success := b }, acc.2) := by
  simp [DiceResponse.unmarshalMember, hk, hv]

/-- Decoding a member that is not named success leaves `Success` as it was. -/
lemma unmarshalMember_success_other (acc : DiceResponse × Option GoError) (m : String × JSON)
    (hk : keyIs m.1 "success" = false) :
    (DiceResponse.unmarshalMember acc m).1.Success = acc.1.Success := by
  obtain ⟨key, v⟩ := m
  unfold DiceResponse.unmarshalMember
  rw [if_neg (by simp [hk])]
  by_cases hd : keyIs key "data" = true
  · rw [if_pos hd]
  · rw [if_neg hd]
    by_cases he : keyIs key "err" = true
    · rw [if_pos he]; cases v <;> rfl
    · rw [if_neg he]

/-- Decoding a member named data stores its value in `Data`. -/
lemma unmarshalMember_data (acc : DiceResponse × Option GoError) (m : String × JSON)
    (hk : keyIs m.1 "data" = true) :
    DiceResponse.unmarshalMember acc m = ({ acc.1 with Data := m.2 }, acc.2) := by
  have hs : keyIs m.1 "success" = false := keyIs_excl m.1 "data" "success" (by decide) hk
  simp [DiceResponse.unmarshalMember, hk, hs]

/-- Decoding a member that is not named data leaves `Data` as it was. -/
lemma unmarshalMember_data_other (acc : DiceResponse × Option GoError) (m : String × JSON)
    (hk : keyIs m.1 "data" = false) :
    (DiceResponse.unmarshalMember acc m).1.Data = acc.1.Data := by
  obtain ⟨key, v⟩ := m
  unfold DiceResponse.unmarshalMember
  by_cases hs : keyIs key "success" = true
  · rw [if_pos hs]; cases v <;> rfl
  · rw [if_neg hs, if_neg (by simp [hk])]
    by_cases he : keyIs key "err" = true
    · rw [if_pos he]; cases v <;> rfl
    · rw [if_neg he]

/-- A well-typed member of an `err` object decodes without error. -/
lemma Err_unmarshalMember_noerr (acc : Err × Option GoError) (x : String × JSON)
    (hacc : acc.2 = none)
    (hx : (if keyIs x.1 "code" then x.2.isStringOrNull
      else if keyIs x.1 "msg" then x.2.isStringOrNull
      else if keyIs x.1 "ctx" then x.2.isObjectOrNull
      else true) = true) :
    (Err.unmarshalMember acc x).2 = none := by
  obtain ⟨key, v⟩ := x
  unfold Err.unmarshalMember
  by_cases h1 : keyIs key "code" = true
  · rw [if_pos h1] at hx ⊢
    cases v <;> first | exact hacc | (simp [JSON.isStringOrNull] at hx)
  · rw [if_neg h1] at hx ⊢
    by_cases h2 : keyIs key "msg" = true
    · rw [if_pos h2] at hx ⊢
      cases v <;> first | exact hacc | (simp [JSON.isStringOrNull] at hx)
    · rw [if_neg h2] at hx ⊢
      by_cases h3 : keyIs key "ctx" = true
      · rw [if_pos h3] at hx ⊢
        cases v <;> first | exact hacc | (simp [JSON.isObjectOrNull] at hx)
      · rw [if_neg h3]
        exact hacc

/-- Well-typed members of an `err` object decode without error. -/
lemma Err_unmarshal_noerr (es : List (String × JSON)) (acc : Err × Option GoError)
    (hacc : acc.2 = none) (hes : errWellTyped (JSON.obj es) = true) :
    (es.foldl Err.unmarshalMember acc).2 = none := by
  simp only [errWellTyped, List.all_eq_true] at hes
  induction es generalizing acc with
  | nil => exact hacc
  | cons x xs ih =>
    rw [List.foldl_cons]
    apply ih
    · exact Err_unmarshalMember_noerr acc x hacc (hes x (List.mem_cons_self _ _))
    · intro y hy
      exact hes y (List.mem_cons_of_mem _ hy)

/-- A member that is a boolean when named success and well typed when named err decodes
without error. -/
lemma unmarshalMember_noerr (acc : DiceResponse × Option GoError) (m : String × JSON)
    (hacc : acc.2 = none)
    (hs : keyIs m.1 "success" = true → ∃ b, m.2 = JSON.bool b)
    (he : keyIs m.1 "err" = true → errWellTyped m.2 = true) :
    (DiceResponse.unmarshalMember acc m).2 = none := by
  simp only [DiceResponse.unmarshalMember]
  split_ifs with h1 h2 h3
  · obtain ⟨b, hb⟩ := hs h1
    simp [hb, hacc]
  · exact hacc
  · have hw := he h3
    cases hv : m.2 with
    | null => simpa using hacc
    | obj es =>
      rw [hv] at hw
      simpa using Err_unmarshal_noerr es (acc.1.Err, acc.2) hacc hw
    | bool b => rw [hv] at hw; simp [errWellTyped] at hw
    | num n => rw [hv] at hw; simp [errWellTyped] at hw
    | str s => rw [hv] at hw; simp [errWellTyped] at hw
    | arr xs => rw [hv] at hw; simp [errWellTyped] at hw
  · exact hacc

/-- After decoding members that say success = `b`, `Success` is `b`. -/
lemma foldl_success (b : Bool) (bs : List (String × JSON))
    (acc : DiceResponse × Option GoError)
    (hall : ∀ m ∈ bs, keyIs m.1 "success" = true → m.2 = JSON.bool b)
    (hex : acc.1.Success = b ∨ ∃ m ∈ bs, keyIs m.1 "success" = true) :
    (bs.foldl DiceResponse.unmarshalMember acc).1.Success = b := by
  induction bs generalizing acc with
  | nil =>
    rcases hex with h | ⟨m, hm, -⟩
    · simpa using h
    · cases hm
  | cons x xs ih =>
    simp only [List.foldl_cons]
    apply ih
    · intro m hm; exact hall m (List.mem_cons_of_mem _ hm)
    · by_cases hx : keyIs x.1 "success" = true
      · left
        rw [unmarshalMember_success acc x b hx (hall x (List.mem_cons_self _ _) hx)]
      · have hx' : keyIs x.1 "success" = false := by simpa using hx
        rcases hex with h | ⟨m, hm, hk⟩
        · left; rw [unmarshalMember_success_other acc x hx']; exact h
        · rcases List.mem_cons.mp hm with rfl | hm'
          · exact absurd hk hx
          · right; exact ⟨m, hm', hk⟩

/-- After decoding members that carry `v` under data, `Data` is `v`. -/
lemma foldl_data (v : JSON) (bs : List (String × JSON))
    (acc : DiceResponse × Option GoError)
    (hall : ∀ m ∈ bs, keyIs m.1 "data" = true → m.2 = v)
    (hex : acc.1.Data = v ∨ ∃ m ∈ bs, keyIs m.1 "data" = true) :
    (bs.foldl DiceResponse.unmarshalMember acc).1.Data = v := by
  induction bs generalizing acc with
  | nil =>
    rcases hex with h | ⟨m, hm, -⟩
    · simpa using h
    · cases hm
  | cons x xs ih =>
    simp only [List.foldl_cons]
    apply ih
    · intro m hm; exact hall m (List.mem_cons_of_mem _ hm)
    · by_cases hx : keyIs x.1 "data" = true
      · left
        rw [unmarshalMember_data acc x hx]
        exact hall x (List.mem_cons_self _ _) hx
      · have hx' : keyIs x.1 "data" = false := by simpa using hx
        rcases hex with h | ⟨m, hm, hk⟩
        · left; rw [unmarshalMember_data_other acc x hx']; exact h
        · rcases List.mem_cons.mp hm with rfl | hm'
          · exact absurd hk hx
          · right; exact ⟨m, hm', hk⟩

/-- Members whose success is a boolean and whose err is well typed decode without error. -/
lemma foldl_noerr (bs : List (String × JSON)) (acc : DiceResponse × Option GoError)
    (hacc : acc.2 = none)
    (hs : ∀ m ∈ bs, keyIs m.1 "success" = true → ∃ b, m.2 = JSON.bool b)
    (he : ∀ m ∈ bs, keyIs m.1 "err" = true → errWellTyped m.2 = true) :
    (bs.foldl DiceResponse.unmarshalMember acc).2 = none := by
  induction bs generalizing acc with
  | nil => simpa using hacc
  | cons x xs ih =>
    simp only [List.foldl_cons]
    apply ih
    · exact unmarshalMember_noerr acc x hacc (hs x (List.mem_cons_self _ _))
        (he x (List.mem_cons_self _ _))
    · intro m hm; exact hs m (List.mem_cons_of_mem _ hm)
    · intro m hm; exact he m (List.mem_cons_of_mem _ hm)

/-- An attempt that receives a failure reply returns an error, whatever `diceResp` held. -/
lemma deployAttempt_of_isFailure (P : Printer) (reply : Reply JSON) (d : DiceResponse)
    (h : reply.isFailure = true) : (deployAttempt P reply d).2 ≠ none := by
  rcases reply with err | ⟨statusCode, body⟩
  · simp [deployAttempt]
  · simp only [deployAttempt]
    rcases hdec : DiceResponse.unmarshal d body with ⟨d', _ | e⟩
    · by_cases hok : IsOK statusCode = true
      · have hbody : ∃ bs, body = JSON.obj bs ∧ saysSuccess false bs = true := by
          cases body <;> simp_all [Reply.isFailure]
        obtain ⟨bs, rfl, hsay⟩ := hbody
        obtain ⟨hex, hall⟩ := (saysSuccess_iff false bs).mp hsay
        have hS : d'.Success = false := by
          have := foldl_success false bs (d, none) hall (Or.inr hex)
          simp only [DiceResponse.unmarshal] at hdec
          rw [hdec] at this
          exact this
        simp [hok, hS]
      · simp [hok]
    · simp

/-- An attempt that receives a 2xx reply saying success = true, with a well-typed err,
returns nil and leaves `Success` set and the carried data in `Data`. -/
lemma deployAttempt_of_success (P : Printer) (statusCode : Nat) (bs : List (String × JSON))
    (d : DiceResponse) (hok : IsOK statusCode = true) (hsay : saysSuccess true bs = true)
    (herr : errOk bs = true) :
    (deployAttempt P (.response statusCode (.obj bs)) d).2 = none ∧
    (deployAttempt P (.response statusCode (.obj bs)) d).1.Success = true ∧
    ∀ v, carries "data" v bs → (deployAttempt P (.response statusCode (.obj bs)) d).1.Data = v := by
  obtain ⟨hex, hall⟩ := (saysSuccess_iff true bs).mp hsay
  have he : ∀ m ∈ bs, keyIs m.1 "err" = true → errWellTyped m.2 = true := by
    intro m hm hk
    have := (List.all_eq_true.mp herr) m hm
    simpa [hk] using this
  have hnoerr := foldl_noerr bs (d, none) rfl (fun m hm hk => ⟨true, hall m hm hk⟩) he
  have hS := foldl_success true bs (d, none) hall (Or.inr hex)
  rcases hdec : bs.foldl DiceResponse.unmarshalMember (d, none) with ⟨d', e'⟩
  rw [hdec] at hnoerr hS
  simp only at hnoerr hS
  subst hnoerr
  have hatt : deployAttempt P (.response statusCode (.obj bs)) d = (d', none) := by
    simp [deployAttempt, DiceResponse.unmarshal, hdec, hok, hS]
  rw [hatt]
  refine ⟨rfl, hS, fun v hv => ?_⟩
  have := foldl_data v bs (d, none) hv.2 (Or.inr hv.1)
  rw [hdec] at this
  exact this

/-- The field `name'` of a data object is supplied by the value the object carries under a
name that differs from `name'` in letter case at most. -/
lemma lookupField_of_carries (name name' : String) (v : JSON) (ms : List (String × JSON))
    (hn : foldKey name = foldKey name') (h : carries name v ms) :
    lookupField name' ms = some v := by
  obtain ⟨⟨m, hm, hk⟩, hall⟩ := h
  show Option.map Prod.snd (ms.reverse.find? (fun m => keyIs m.1 name')) = some v
  rcases hfind : ms.reverse.find? (fun m => keyIs m.1 name') with _ | x
  · have hnone := List.find?_eq_none.mp hfind m (List.mem_reverse.mpr hm)
    rw [← keyIs_congr m.1 name name' hn] at hnone
    exact absurd hk hnone
  · have hx : (fun m : String × JSON => keyIs m.1 name') x = true :=
      @List.find?_some (String × JSON) (fun m => keyIs m.1 name') x ms.reverse hfind
    have hmem : x ∈ ms := List.mem_reverse.mp (List.mem_of_find?_eq_some hfind)
    have hx' : keyIs x.1 name = true := by
      rw [keyIs_congr x.1 name name' hn]; exact hx
    rw [hfind]
    exact congrArg some (hall x hmem hx')

/-- The field `name'` of a data object has no value when the object lacks its name. -/
lemma lookupField_of_lacks (name name' : String) (ms : List (String × JSON))
    (hn : foldKey name = foldKey name') (h : lacks name ms = true) :
    lookupField name' ms = none := by
  show Option.map Prod.snd (ms.reverse.find? (fun m => keyIs m.1 name')) = none
  rw [Option.map_eq_none', List.find?_eq_none]
  intro x hx
  have := (List.all_eq_true.mp h) x (List.mem_reverse.mp hx)
  rw [← keyIs_congr x.1 name name' hn]
  simpa using this

/-- An integer of magnitude at most `2^53` reaches an `int64` field unchanged. -/
lemma int64OfFloat_float64OfInt (n : Int) (hlo : -2^53 ≤ n) (hhi : n ≤ 2^53) :
    int64OfFloat (float64OfInt n) = Int64.ofInt n ∧ (Int64.ofInt n).val = n := by
  have hf : float64OfInt n = n := by
    unfold float64OfInt
    have : n.natAbs ≤ 2^53 := by omega
    simp only [this, if_true]
  have hr : -2^63 ≤ n ∧ n < 2^63 := by constructor <;> omega
  have hv : (Int64.ofInt n).val = n := by
    show (n + 2^63) % 2^64 - 2^63 = n
    rw [Int.emod_eq_of_lt (by omega) (by omega)]
    omega
  refine ⟨?_, hv⟩
  rw [hf]
  unfold int64OfFloat
  rw [dif_pos hr]
  cases hofe : Int64.ofInt n with
  | mk val inRange =>
    rw [hofe] at hv
    simp only at hv
    subst hv
    rfl

/-- The error of an attempt that receives a failure reply. -/
lemma attemptErr_of_isFailure (P : Printer) (endpoint : Nat → Reply JSON) (j : Nat)
    (h : (endpoint j).isFailure = true) : attemptErr P endpoint j ≠ none := by
  simp only [attemptErr, deployStep, stateAfter_requests]
  exact deployAttempt_of_isFailure P (endpoint j) _ h

/-- The retry loop of `Deploy` when reply `k` is the first that is not a failure and is a
2xx response saying success = true. -/
lemma retry_of_success (P : Printer) (endpoint : Nat → Reply JSON) (k statusCode : Nat)
    (bs : List (String × JSON)) (v : JSON) (hk : k < 5)
    (hfail : ∀ j, j < k → (endpoint j).isFailure = true)
    (hrep : endpoint k = .response statusCode (.obj bs)) (hok : IsOK statusCode = true)
    (hsay : saysSuccess true bs = true) (herr : errOk bs = true)
    (hdata : carries "data" v bs) :
    ∃ s, DoWithInterval (deployStep P endpoint) 5 {} = (s, none) ∧ s.requests = k + 1 ∧
      s.diceResp.Data = v := by
  have hatt := deployAttempt_of_success P statusCode bs (stateAfter P endpoint k).diceResp
    hok hsay herr
  have hnone : attemptErr P endpoint k = none := by
    simp only [attemptErr, deployStep, stateAfter_requests, hrep]
    exact hatt.1
  have hrun := retry_first_success P endpoint k hk
    (fun j hj => attemptErr_of_isFailure P endpoint j (hfail j hj)) hnone
  refine ⟨_, hrun, stateAfter_requests P endpoint (k + 1), ?_⟩
  have hstep : stateAfter P endpoint (k + 1) =
      (deployStep P endpoint (stateAfter P endpoint k)).1 :=
    runFrom_succ (deployStep P endpoint) k {}
  rw [hstep]
  simp only [deployStep, stateAfter_requests, hrep]
  exact hatt.2.2 v hdata

/-! ## Properties of `Deploy` -/

/-- C6 as stated fails: the first 4 attempts fail, the 5th receives status 200 with
success = true and succeeds, yet `Deploy` returns a nil result and an error, because the
data of the 5th response is a string and does not decode. -/
theorem Deploy_retries_bad_shape :
    (∀ j, j < 4 → (badShape j).isFailure = true) ∧
    (∀ j, j < 4 → attemptErr Printer.elided badShape j ≠ none) ∧
    badShape 4 = .response 200 (.obj [("success", .bool true), ("data", .str "oops")]) ∧
    attemptErr Printer.elided badShape 4 = none ∧
    (Deploy Printer.elided badShape).requests = 5 ∧
    (Deploy Printer.elided badShape).result = none ∧
    (Deploy Printer.elided badShape).err ≠ none := by
  refine ⟨by decide, by decide, rfl, by decide, by decide, by decide, by decide⟩

/-- C6, amended: `Deploy` sends at least one and at most 5 requests. An attempt fails on a
request error, a status that is not 2xx, or an envelope that says success = false. If the
first `k < 5` attempts fail and the next one receives a 2xx response whose envelope says
success = true and carries data, `Deploy` sends exactly `k + 1` requests (5 when the first
4 fail) and returns what the data decodes to: the result with a nil error when the data
decodes, a nil result and the wrapped decode error when it does not. If the first 5
attempts fail, `Deploy` returns a nil result and the error of the 5th attempt after
exactly 5 requests. -/
theorem Deploy_retries (P : Printer) (endpoint : Nat → Reply JSON) :
    (1 ≤ (Deploy P endpoint).requests ∧ (Deploy P endpoint).requests ≤ 5) ∧
    (∀ (k statusCode : Nat) (bs : List (String × JSON)) (v : JSON), k < 5 →
      (∀ j, j < k → (endpoint j).isFailure = true) →
      endpoint k = .response statusCode (.obj bs) → IsOK statusCode = true →
      saysSuccess true bs = true → errOk bs = true → carries "data" v bs →
      (Deploy P endpoint).requests = k + 1 ∧
      ((mapstructureDecode v).2 = none →
        (Deploy P endpoint).result = some (mapstructureDecode v).1 ∧
        (Deploy P endpoint).err = none) ∧
      (∀ e, (mapstructureDecode v).2 = some e →
        (Deploy P endpoint).result = none ∧
        (Deploy P endpoint).err = some (.errorf ("mapstructure data=" ++
          P.deployResult (mapstructureDecode v).1 ++ ": " ++ e.Error)))) ∧
    ((∀ j, j < 5 → (endpoint j).isFailure = true) →
      (Deploy P endpoint).requests = 5 ∧ (Deploy P endpoint).result = none ∧
      (Deploy P endpoint).err = attemptErr P endpoint 4 ∧ (Deploy P endpoint).err ≠ none) := by
  refine ⟨?_, ?_, ?_⟩
  · rw [Deploy_requests]
    have h := DoWithIntervalLoop_requests P endpoint 5 none {}
    simp only [DoWithInterval]
    have h0 : ({} : DeployRun).requests = 0 := rfl
    rw [h0] at h
    constructor
    · have := h.1
      simpa using this
    · have := h.2
      simpa using this
  · intro k statusCode bs v hk hfail hrep hok hsay herr hdata
    obtain ⟨s, hrun, hreq, hD⟩ :=
      retry_of_success P endpoint k statusCode bs v hk hfail hrep hok hsay herr hdata
    refine ⟨?_, ?_, ?_⟩
    · rw [Deploy_requests, hrun]; exact hreq
    · intro hdec
      simp [Deploy, hrun, hD, hdec]
    · intro e hdec
      simp [Deploy, hrun, hD, hdec]
  · intro hfail
    have hfail' : ∀ j, j < 5 → attemptErr P endpoint j ≠ none :=
      fun j hj => attemptErr_of_isFailure P endpoint j (hfail j hj)
    have hrun := retry_all_fail P endpoint hfail'
    have h4 := hfail' 4 (by omega)
    obtain ⟨e, he⟩ := Option.ne_none_iff_exists'.mp h4
    refine ⟨?_, ?_, ?_, ?_⟩
    · rw [Deploy_requests, hrun, stateAfter_requests]
    · simp [Deploy, hrun, he]
    · simp [Deploy, hrun, he]
    · simp [Deploy, hrun, he]

/-- Witness for C6 amended: an endpoint whose first 4 requests fail in four ways and whose
5th succeeds is asked 5 times and `Deploy` returns the decoded data; an endpoint that is
always down is asked 5 times and `Deploy` returns the error of the 5th attempt. -/
theorem Deploy_retries_witness :
    ((Deploy Printer.elided flaky).requests = 5 ∧
      (Deploy Printer.elided flaky).result = some ⟨10, 20, 30, "alice"⟩ ∧
      (Deploy Printer.elided flaky).err = none) ∧
    ((Deploy Printer.elided alwaysDown).requests = 5 ∧
      (Deploy Printer.elided alwaysDown).result = none ∧
      (Deploy Printer.elided alwaysDown).err = some (.lib "connection refused #4") ∧
      (Deploy Printer.elided alwaysDown).err ≠ none) :=
  ⟨⟨((Deploy_retries Printer.elided flaky).2.1 4 200
        [("success", .bool true),
          ("data", .obj [("deploymentId", .num 10), ("applicationId", .num 20),
            ("runtimeId", .num 30), ("operator", .str "alice")])]
        (.obj [("deploymentId", .num 10), ("applicationId", .num 20),
            ("runtimeId", .num 30), ("operator", .str "alice")])
        (by decide) (by decide) rfl (by decide) (by decide) (by decide)
        ⟨⟨_, .tail _ (.head _), by decide⟩, by
          intro m hm hk
          rcases List.mem_cons.mp hm with rfl | hm
          · exact absurd hk (by decide)
          · rw [List.mem_singleton.mp hm]⟩).1,
    ((Deploy_retries Printer.elided flaky).2.1 4 200
        [("success", .bool true),
          ("data", .obj [("deploymentId", .num 10), ("applicationId", .num 20),
            ("runtimeId", .num 30), ("operator", .str "alice")])]
        (.obj [("deploymentId", .num 10), ("applicationId", .num 20),
            ("runtimeId", .num 30), ("operator", .str "alice")])
        (by decide) (by decide) rfl (by decide) (by decide) (by decide)
        ⟨⟨_, .tail _ (.head _), by decide⟩, by
          intro m hm hk
          rcases List.mem_cons.mp hm with rfl | hm
          · exact absurd hk (by decide)
          · rw [List.mem_singleton.mp hm]⟩).2.1 (by decide)⟩,
   (Deploy_retries Printer.elided alwaysDown).2.2 (fun _ _ => rfl)⟩

/-- An `int64` field whose member carries an integer of magnitude at most `2^53`, or is
missing, decodes to that integer, or to zero. -/
lemma decodeInt_field (name name' : String) (ms : List (String × JSON)) (n : Int)
    (hn : foldKey name = foldKey name')
    (h : (carries name (JSON.num n) ms ∧ -2^53 ≤ n ∧ n ≤ 2^53) ∨
      (lacks name ms = true ∧ n = 0)) :
    decodeInt name' (lookupField name' ms) = (Int64.ofInt n, []) ∧ (Int64.ofInt n).val = n := by
  rcases h with ⟨hc, hlo, hhi⟩ | ⟨hl, rfl⟩
  · rw [lookupField_of_carries name name' _ ms hn hc]
    have := int64OfFloat_float64OfInt n hlo hhi
    exact ⟨by simp only [decodeInt, this.1], this.2⟩
  · rw [lookupField_of_lacks name name' ms hn hl]
    exact ⟨rfl, rfl⟩

/-- A `string` field whose member carries a string, or is missing, decodes to that
string, or to the empty string. -/
lemma decodeString_field (name name' : String) (ms : List (String × JSON)) (o : String)
    (hn : foldKey name = foldKey name')
    (h : carries name (JSON.str o) ms ∨ (lacks name ms = true ∧ o = "")) :
    decodeString name' (lookupField name' ms) = (o, []) := by
  rcases h with hc | ⟨hl, rfl⟩
  · rw [lookupField_of_carries name name' _ ms hn hc]
    rfl
  · rw [lookupField_of_lacks name name' ms hn hl]
    rfl

/-- C7 as stated fails: a 200 response with success = true whose data carries the integer
deploymentId `2^53 + 1` makes `Deploy` return a result whose `DeploymentId` is `2^53`,
the `float64` that holds the number in the decoded `interface{}`. -/
theorem Deploy_big_id :
    bigId 0 = .response 200 (.obj [("success", .bool true),
      ("data", .obj [("deploymentId", .num 9007199254740993), ("applicationId", .num 20),
        ("runtimeId", .num 30), ("operator", .str "alice")])]) ∧
    Deploy Printer.elided bigId = ⟨some ⟨9007199254740992, 20, 30, "alice"⟩, none, 1, []⟩ ∧
    (Deploy Printer.elided bigId).result ≠ some ⟨9007199254740993, 20, 30, "alice"⟩ := by
  refine ⟨rfl, rfl, by decide⟩

/-- C7, amended: when the first attempt that does not fail receives a 2xx response whose
envelope says success = true and carries a data object, `Deploy` returns, with a nil
error, the `DeployResult` whose fields are the values that the object carries under
deploymentId, applicationId, runtimeId (integers of magnitude at most `2^53`) and
operator (a string); a missing member leaves the zero value, and members with other names
are ignored. -/
theorem Deploy_decodes_data (P : Printer) (endpoint : Nat → Reply JSON) (k statusCode : Nat)
    (bs ms : List (String × JSON)) (d a r : Int) (o : String)
    (hk : k < 5) (hfail : ∀ j, j < k → (endpoint j).isFailure = true)
    (hrep : endpoint k = .response statusCode (.obj bs)) (hok : IsOK statusCode = true)
    (hsay : saysSuccess true bs = true) (herr : errOk bs = true)
    (hdata : carries "data" (.obj ms) bs)
    (hd : (carries "deploymentId" (.num d) ms ∧ -2^53 ≤ d ∧ d ≤ 2^53) ∨
      (lacks "deploymentId" ms = true ∧ d = 0))
    (ha : (carries "applicationId" (.num a) ms ∧ -2^53 ≤ a ∧ a ≤ 2^53) ∨
      (lacks "applicationId" ms = true ∧ a = 0))
    (hr : (carries "runtimeId" (.num r) ms ∧ -2^53 ≤ r ∧ r ≤ 2^53) ∨
      (lacks "runtimeId" ms = true ∧ r = 0))
    (ho : carries "operator" (.str o) ms ∨ (lacks "operator" ms = true ∧ o = "")) :
    Deploy P endpoint =
      ⟨some ⟨Int64.ofInt d, Int64.ofInt a, Int64.ofInt r, o⟩, none, k + 1, []⟩ ∧
    (Int64.ofInt d).val = d ∧ (Int64.ofInt a).val = a ∧ (Int64.ofInt r).val = r := by
  obtain ⟨s, hrun, hreq, hD⟩ :=
    retry_of_success P endpoint k statusCode bs _ hk hfail hrep hok hsay herr hdata
  have hd' := decodeInt_field "deploymentId" "DeploymentId" ms d (by decide) hd
  have ha' := decodeInt_field "applicationId" "ApplicationId" ms a (by decide) ha
  have hr' := decodeInt_field "runtimeId" "RuntimeId" ms r (by decide) hr
  have ho' := decodeString_field "operator" "Operator" ms o (by decide) ho
  have hdec : mapstructureDecode s.diceResp.Data =
      (⟨Int64.ofInt d, Int64.ofInt a, Int64.ofInt r, o⟩, none) := by
    rw [hD]
    simp [mapstructureDecode, hd'.1, ha'.1, hr'.1, ho']
  refine ⟨?_, hd'.2, ha'.2, hr'.2⟩
  rw [Deploy_of_retry_ok P endpoint s _ hrun hdec, hreq]

/-- Witness for C7 amended: the success response of the specification, answered to the
first request. -/
theorem Deploy_decodes_data_witness :
    Deploy Printer.elided (failsFirst 0) = ⟨some ⟨10, 20, 30, "alice"⟩, none, 1, []⟩ :=
  (Deploy_decodes_data Printer.elided (failsFirst 0) 0 200
    [("success", .bool true),
      ("data", .obj [("deploymentId", .num 10), ("applicationId", .num 20),
        ("runtimeId", .num 30), ("operator", .str "alice")])]
    [("deploymentId", .num 10), ("applicationId", .num 20), ("runtimeId", .num 30),
      ("operator", .str "alice")] 10 20 30 "alice"
    (by decide) (by decide) rfl (by decide) (by decide) (by decide)
    ⟨⟨_, .tail _ (.head _), by decide⟩, by
      intro m hm hk
      rcases List.mem_cons.mp hm with rfl | hm
      · exact absurd hk (by decide)
      · rw [List.mem_singleton.mp hm]⟩
    (Or.inl ⟨⟨⟨_, .head _, by decide⟩, by
      intro m hm hk
      simp only [List.mem_cons, List.mem_singleton, List.not_mem_nil, or_false] at hm
      rcases hm with rfl | rfl | rfl | rfl
      · rfl
      · exact absurd hk (by decide)
      · exact absurd hk (by decide)
      · exact absurd hk (by decide)⟩, by norm_num, by norm_num⟩)
    (Or.inl ⟨⟨⟨_, .tail _ (.head _), by decide⟩, by
      intro m hm hk
      simp only [List.mem_cons, List.mem_singleton, List.not_mem_nil, or_false] at hm
      rcases hm with rfl | rfl | rfl | rfl
      · exact absurd hk (by decide)
      · rfl
      · exact absurd hk (by decide)
      · exact absurd hk (by decide)⟩, by norm_num, by norm_num⟩)
    (Or.inl ⟨⟨⟨_, .tail _ (.tail _ (.head _)), by decide⟩, by
      intro m hm hk
      simp only [List.mem_cons, List.mem_singleton, List.not_mem_nil, or_false] at hm
      rcases hm with rfl | rfl | rfl | rfl
      · exact absurd hk (by decide)
      · exact absurd hk (by decide)
      · rfl
      · exact absurd hk (by decide)⟩, by norm_num, by norm_num⟩)
    (Or.inl ⟨⟨_, .tail _ (.tail _ (.tail _ (.head _))), by decide⟩, by
      intro m hm hk
      simp only [List.mem_cons, List.mem_singleton, List.not_mem_nil, or_false] at hm
      rcases hm with rfl | rfl | rfl | rfl
      · exact absurd hk (by decide)
      · exact absurd hk (by decide)
      · exact absurd hk (by decide)
      · rfl⟩)).1

/-- C10 fails on the code: two runs whose final (second) attempts receive the same status
and the same body return different results, because the data decoded by the first, failed
attempt is still in `diceResp` when the second attempt succeeds. -/
theorem Deploy_stale_data :
    staleData 1 1 = staleData 2 1 ∧
    attemptErr Printer.elided (staleData 1) 0 ≠ none ∧
    attemptErr Printer.elided (staleData 2) 0 ≠ none ∧
    Deploy Printer.elided (staleData 1) = ⟨some ⟨1, 0, 0, ""⟩, none, 2, []⟩ ∧
    Deploy Printer.elided (staleData 2) = ⟨some ⟨2, 0, 0, ""⟩, none, 2, []⟩ ∧
    (Deploy Printer.elided (staleData 1)).result ≠ (Deploy Printer.elided (staleData 2)).result := by
  refine ⟨rfl, by decide, by decide, rfl, rfl, by decide⟩

end Dice
